import Mathlib

/-!
Verification of the SimBridge relay server (src/main.py, src/models.py).

The data model and operations below are a shallow embedding of the Python
source.  Persistent rows are lists of structures; the in-memory WebSocket
`connections` dict is an association list of `(device_id, session handle)`
pairs; channel sends are modelled by an oracle `sendOk : Nat → Bool`
(resp. indexed by send attempt for the pending-command drain); wall-clock
times are integers.

Modelled from the spec: `models.py` in the repository does not declare the
`PendingCommand` table nor the `email` / `google_id` columns of `User`,
although `main.py` imports and uses them.  Their fields follow the spec's
data model (§3): `PendingCommand(id, host_device_id, from_device_id,
payload, delivered, created_at)` with `delivered` defaulting to false, and
`User` carrying optional `email` and `google_id`.
-/

namespace SimBridge

/-- A device row (src/models.py, class Device). -/
structure Device where
  id : Nat
  user_id : Nat
  name : String
  device_type : String
  last_seen : Option ℤ := none
  deriving Repr, DecidableEq

/-- A user row (src/models.py class User; `email` / `google_id` as used by
src/main.py google_login). -/
structure User where
  id : Nat
  username : String
  email : Option String := none
  google_id : Option String := none
  deriving Repr, DecidableEq

/-- A pairing-code row (src/models.py, class PairingCode). -/
structure PairingCode where
  id : Nat
  user_id : Nat
  host_device_id : Nat
  code : String
  expires_at : ℤ
  used : Bool
  created_at : ℤ
  deriving Repr, DecidableEq

/-- A pairing row (src/models.py, class Pairing). -/
structure Pairing where
  id : Nat
  host_device_id : Nat
  client_device_id : Nat
  deriving Repr, DecidableEq

/-- A JSON wire message; only the fields the server inspects are explicit,
`body` stands for the remaining opaque payload. -/
structure WireMsg where
  mtype : String
  cmd : Option String := none
  to_device_id : Option Nat := none
  req_id : Option String := none
  from_device_id : Option Nat := none
  body : String := ""
  deriving Repr, DecidableEq

/-- A message-log row (src/models.py, class MessageLog). -/
structure MessageLog where
  id : Nat
  from_device_id : Nat
  to_device_id : Nat
  msg_type : String
  payload : WireMsg
  created_at : ℤ
  deriving Repr, DecidableEq

/-- A pending-command row (spec §3; the class is imported by src/main.py
but missing from src/models.py). -/
structure PendingCommand where
  id : Nat
  host_device_id : Nat
  from_device_id : Nat
  payload : WireMsg
  delivered : Bool
  created_at : ℤ
  deriving Repr, DecidableEq

/-- The relational store. `nextId` models the autoincrement primary key. -/
structure DB where
  users : List User := []
  devices : List Device := []
  pairingCodes : List PairingCode := []
  pairings : List Pairing := []
  messageLogs : List MessageLog := []
  pendingCommands : List PendingCommand := []
  nextId : Nat := 1
  deriving Repr, DecidableEq

/-- Error kinds surfaced over HTTP by the operations modelled here. -/
inductive ApiError
  | notFound
  | rateLimited
  | invalidCode
  | forbidden
  deriving Repr, DecidableEq

/-! ## Rate limiter (src/main.py, `_check_rate_limit`) -/

/-- `AUTH_RATE_LIMIT = 5` (src/main.py line 43). -/
def AUTH_RATE_LIMIT : Nat := 5

/-- `AUTH_RATE_WINDOW = 60` seconds (src/main.py line 44). -/
def AUTH_RATE_WINDOW : ℤ := 60

/-- Prune entries older than the window:
`[t for t in attempts if now - t < AUTH_RATE_WINDOW]`. -/
def pruneAttempts (now : ℤ) (attempts : List ℤ) : List ℤ :=
  attempts.filter (fun t => decide (now - t < AUTH_RATE_WINDOW))

/-- `_check_rate_limit` on the recorded attempts of one key: `none` models
raising HTTP 429, `some l` is the updated attempt list. -/
def checkRateLimit (now : ℤ) (attempts : List ℤ) : Option (List ℤ) :=
  if AUTH_RATE_LIMIT ≤ (pruneAttempts now attempts).length then none
  else some (pruneAttempts now attempts ++ [now])

/-! ## Pairing service (src/main.py, `create_pairing_code` and
`confirm_pairing`) -/

/-- The device lookup of `confirm_pairing` step 1: the client device must
exist, belong to the caller and have type "client". -/
def findClientDevice (db : DB) (client_device_id user_id : Nat) : Option Device :=
  db.devices.find? (fun d =>
    d.id == client_device_id && d.user_id == user_id && d.device_type == "client")

/-- The device lookup of `create_pairing_code`: the host device must exist,
belong to the caller and have type "host". -/
def findHostDevice (db : DB) (host_device_id user_id : Nat) : Option Device :=
  db.devices.find? (fun d =>
    d.id == host_device_id && d.user_id == user_id && d.device_type == "host")

/-- The code lookup of `confirm_pairing` step 3: matching code, unused,
not yet expired. -/
def findValidCode (db : DB) (now : ℤ) (code : String) : Option PairingCode :=
  db.pairingCodes.find? (fun pc =>
    pc.code == code && pc.used == false && decide (now < pc.expires_at))

/-- Set `used = true` on the pairing-code row with the given id. -/
def markCodeUsed (db : DB) (pcId : Nat) : DB :=
  { db with pairingCodes := db.pairingCodes.map (fun c =>
      if c.id == pcId then { c with used := true } else c) }

/-- Result payload of `confirm_pairing`. -/
structure ConfirmOk where
  status : String
  pairing_id : Nat
  deriving Repr, DecidableEq

/-- `confirm_pairing` (src/main.py lines 273-323).  `rl` is the recorded
rate-limiter attempt list for the key `"pair:" + client_device_id`; the
result carries the updated store and attempt list. -/
def confirmPairing (db : DB) (rl : List ℤ) (now : ℤ) (code : String)
    (client_device_id user_id : Nat) :
    Except ApiError (ConfirmOk × DB × List ℤ) :=
  match findClientDevice db client_device_id user_id with
  | none => .error .notFound
  | some _ =>
    match checkRateLimit now rl with
    | none => .error .rateLimited
    | some rl2 =>
      match findValidCode db now code with
      | none => .error .invalidCode
      | some pc =>
        if pc.user_id != user_id then .error .forbidden
        else
          match db.pairings.find? (fun p =>
              p.host_device_id == pc.host_device_id &&
              p.client_device_id == client_device_id) with
          | some existing =>
            .ok ({ status := "already_paired", pairing_id := existing.id },
                 markCodeUsed db pc.id, rl2)
          | none =>
            let pairing : Pairing :=
              { id := db.nextId, host_device_id := pc.host_device_id,
                client_device_id := client_device_id }
            .ok ({ status := "paired", pairing_id := pairing.id },
                 markCodeUsed
                   { db with pairings := db.pairings ++ [pairing],
                             nextId := db.nextId + 1 } pc.id, rl2)

/-- `_generate_code` (src/main.py lines 238-240): six characters picked
from `string.digits`; the random choices are the oracle `pick`. -/
def generateCode (pick : Fin 6 → Fin 10) : String :=
  String.mk ((List.finRange 6).map (fun i =>
    "0123456789".data.getD (pick i).val (Char.ofNat 48)))

/-- Result payload of `create_pairing_code`. -/
structure PairCodeOk where
  code : String
  expires_in_seconds : Nat
  deriving Repr, DecidableEq

/-- The first transaction step of `create_pairing_code` (src/main.py
lines 256-259): mark every unused code of the host as used. -/
def invalidateCodes (l : List PairingCode) (host_device_id : Nat) :
    List PairingCode :=
  l.map (fun c =>
    if c.host_device_id == host_device_id && c.used == false then
      { c with used := true }
    else c)

/-- The fresh `PairingCode` row inserted by `create_pairing_code`:
expires 10 minutes after `now`. -/
def freshCodeRow (db : DB) (now : ℤ) (pick : Fin 6 → Fin 10)
    (host_device_id user_id : Nat) : PairingCode :=
  { id := db.nextId, user_id := user_id, host_device_id := host_device_id,
    code := generateCode pick, expires_at := now + 10 * 60, used := false,
    created_at := now }

/-- `create_pairing_code` (src/main.py lines 243-270): after the host
device check, mark every unused code of this host as used, then insert a
fresh code expiring 10 minutes from now, all in one transaction. -/
def createPairingCode (db : DB) (now : ℤ) (pick : Fin 6 → Fin 10)
    (host_device_id user_id : Nat) : Except ApiError (PairCodeOk × DB) :=
  match findHostDevice db host_device_id user_id with
  | none => .error .notFound
  | some _ =>
    .ok ({ code := generateCode pick, expires_in_seconds := 600 },
         { db with
           pairingCodes := invalidateCodes db.pairingCodes host_device_id ++
             [freshCodeRow db now pick host_device_id user_id],
           nextId := db.nextId + 1 })

/-- The codes of a host that are unused and not yet expired at time
`now` (the quantity bounded by the spec's pairing-code invariant). -/
def liveCodes (db : DB) (host_device_id : Nat) (now : ℤ) : List PairingCode :=
  db.pairingCodes.filter (fun c =>
    c.host_device_id == host_device_id && c.used == false &&
      decide (now < c.expires_at))

/-! ## Session registry (src/main.py, the `connections` dict guarded by
`_conn_lock`; sessions are abstract handles) -/

/-- The in-memory registry `device_id → WebSocket`, as an association list
with unique keys (a dict). -/
abbrev Registry := List (Nat × Nat)

/-- `connections.get(device_id)`. -/
def getConn (reg : Registry) (device_id : Nat) : Option Nat :=
  (reg.find? (fun p => p.1 == device_id)).map (fun p => p.2)

/-- `connections[device_id] = ws`. -/
def setConn (reg : Registry) (device_id session : Nat) : Registry :=
  if reg.any (fun p => p.1 == device_id) then
    reg.map (fun p => if p.1 == device_id then (device_id, session) else p)
  else reg ++ [(device_id, session)]

/-- The disconnect cleanup: `if connections.get(device_id) is ws:
connections.pop(device_id, None)` (src/main.py lines 727-729). -/
def unbindIf (reg : Registry) (device_id session : Nat) : Registry :=
  if getConn reg device_id = some session then
    reg.filter (fun p => p.1 != device_id)
  else reg

/-- Well-formedness of the registry: a dict has unique keys. -/
def RegWF (reg : Registry) : Prop := (reg.map Prod.fst).Nodup

/-! ## Relay (src/main.py, `_relay_command`) -/

/-- Outcome of `_relay_command`: `deliveryFailed` models the
`HTTPException(502, ...)` raised on a failed send to a live session. -/
inductive RelayResult
  | sent (req_id : String)
  | queued (req_id : String)
  | deliveryFailed
  deriving Repr, DecidableEq

/-- `req_id = msg.get("req_id") or str(uuid.uuid4())`; `fresh` stands for
the generated UUID, and a present-but-empty string is falsy in Python. -/
def reqIdOf (msg : WireMsg) (fresh : String) : String :=
  match msg.req_id with
  | some r => if r == "" then fresh else r
  | none => fresh

/-- Append a `MessageLog` row. -/
def logMessage (db : DB) (sender target : Nat) (mtype : String)
    (payload : WireMsg) (now : ℤ) : DB :=
  { db with
    messageLogs := db.messageLogs ++
      [{ id := db.nextId, from_device_id := sender, to_device_id := target,
         msg_type := mtype, payload := payload, created_at := now }],
    nextId := db.nextId + 1 }

/-- `_relay_command` (src/main.py lines 347-392): stamp a `req_id`, log,
then deliver live, queue a `PendingCommand` when no session exists, or
report 502 when the live send fails (without queueing). -/
def relayCommand (db : DB) (reg : Registry) (sendOk : Nat → Bool) (now : ℤ)
    (fresh : String) (host_device_id : Nat) (msg : WireMsg)
    (from_device_id : Nat) : RelayResult × DB :=
  let req_id := reqIdOf msg fresh
  let msg2 := { msg with req_id := some req_id }
  let db1 := logMessage db from_device_id host_device_id "command" msg2 now
  match getConn reg host_device_id with
  | none =>
    let pending : PendingCommand :=
      { id := db1.nextId, host_device_id := host_device_id,
        from_device_id := from_device_id, payload := msg2,
        delivered := false, created_at := now }
    (.queued req_id,
     { db1 with pendingCommands := db1.pendingCommands ++ [pending],
                nextId := db1.nextId + 1 })
  | some s =>
    if sendOk s then (.sent req_id, db1) else (.deliveryFailed, db1)

/-! ## WebSocket read loop (src/main.py, `_ws_loop`) -/

/-- Observable effect of handling one inbound frame in `_ws_loop`. -/
inductive WsEffect
  | pong
  | errorInvalidType (t : String)
  | errorNoPairedHost
  | errorNoPairedClient
  | errorUnknownDeviceType
  | forwarded (target : Nat) (msg : WireMsg)
  | forwardFailedLogged (target : Nat)
  | targetOffline (target : Nat) (req_id : Option String)
  deriving Repr, DecidableEq

/-- `ALLOWED_WS_TYPES` (src/main.py line 527). -/
def ALLOWED_WS_TYPES : List String := ["ping", "command", "event", "webrtc"]

/-- `msg.get("to_device_id")` followed by Python truthiness (`if not
target_id`): an explicit 0 counts as absent. -/
def explicitTarget (msg : WireMsg) : Option Nat :=
  match msg.to_device_id with
  | some t => if t == 0 then none else some t
  | none => none

/-- Target resolution of `_ws_loop` (src/main.py lines 559-582): prefer the
frame's `to_device_id`, else the first pairing of the sender by role. -/
def resolveTarget (db : DB) (device_id : Nat) (device_type : String)
    (msg : WireMsg) : Except WsEffect Nat :=
  if device_type == "client" then
    match explicitTarget msg with
    | some t => .ok t
    | none =>
      match db.pairings.find? (fun p => p.client_device_id == device_id) with
      | some p => .ok p.host_device_id
      | none => .error .errorNoPairedHost
  else if device_type == "host" then
    match explicitTarget msg with
    | some t => .ok t
    | none =>
      match db.pairings.find? (fun p => p.host_device_id == device_id) with
      | some p => .ok p.client_device_id
      | none => .error .errorNoPairedClient
  else .error .errorUnknownDeviceType

/-- One iteration of `_ws_loop` on a parsed frame (src/main.py lines
536-614): answer pings, reject unknown types, resolve the target, log the
raw frame, then forward to the target's live session with
`from_device_id` stamped — a failed forward is only logged — or reply
`target_offline` when there is no live session.  No pairing or ownership
check is made on an explicit target. -/
def wsLoopStep (db : DB) (reg : Registry) (sendOk : Nat → Bool) (now : ℤ)
    (device_id : Nat) (device_type : String) (msg : WireMsg) :
    WsEffect × DB :=
  if msg.mtype == "ping" then (.pong, db)
  else if !(ALLOWED_WS_TYPES.contains msg.mtype) then
    (.errorInvalidType msg.mtype, db)
  else
    match resolveTarget db device_id device_type msg with
    | .error e => (e, db)
    | .ok target =>
      let db1 := logMessage db device_id target msg.mtype msg now
      match getConn reg target with
      | some s =>
        if sendOk s then
          (.forwarded target { msg with from_device_id := some device_id }, db1)
        else (.forwardFailedLogged target, db1)
      | none => (.targetOffline target msg.req_id, db1)

/-! ## Connect sequence and pending-command drain (src/main.py,
`_ws_connect_and_loop`) -/

/-- Channel events observed (in order) by the environment during
`_ws_connect_and_loop`, up to the start of the read loop. -/
inductive ConnEvent
  | closedOld (code : Nat) (reason : String)
  | sentPending (m : WireMsg)
  | greeting (device_id : Nat)
  | readLoopStart
  deriving Repr, DecidableEq

/-- The drain loop body (src/main.py lines 704-709): send each pending
payload in turn; a send failure breaks out of the loop.  Returns the
payloads sent and the ids of the rows marked delivered; `sendOk k` is the
outcome of the k-th send attempt. -/
def drainAux (sendOk : Nat → Bool) : Nat → List PendingCommand →
    List WireMsg × List Nat
  | _, [] => ([], [])
  | k, c :: rest =>
    if sendOk k then
      (c.payload :: (drainAux sendOk (k + 1) rest).1,
       c.id :: (drainAux sendOk (k + 1) rest).2)
    else ([], [])

/-- The drain query (src/main.py lines 700-703): undelivered rows of this
host ordered by `created_at` ascending. -/
def pendingQueue (db : DB) (device_id : Nat) : List PendingCommand :=
  (db.pendingCommands.filter (fun c =>
    c.host_device_id == device_id && c.delivered == false)).mergeSort
    (fun a b => decide (a.created_at ≤ b.created_at))

/-- Commit `cmd.delivered = True` for the drained rows. -/
def markDelivered (db : DB) (ids : List Nat) : DB :=
  { db with pendingCommands := db.pendingCommands.map (fun c =>
      if ids.contains c.id then { c with delivered := true } else c) }

/-- `_ws_connect_and_loop` after ownership verification (src/main.py lines
672-723): accept, bind (closing a displaced predecessor with 1008),
update `last_seen`, drain pending commands when the device is a host,
send the `connected` greeting, then enter the read loop.  Returns the
event trace, the updated store and the updated registry. -/
def connectSequence (db : DB) (reg : Registry) (sendOk : Nat → Bool)
    (now : ℤ) (device_id session : Nat) (device_type : String) :
    List ConnEvent × DB × Registry :=
  let closeEvts : List ConnEvent :=
    match getConn reg device_id with
    | some _ => [.closedOld 1008 "Replaced by new connection"]
    | none => []
  let reg2 := setConn reg device_id session
  let db0 := { db with devices := db.devices.map (fun d =>
    if d.id == device_id then { d with last_seen := some now } else d) }
  if device_type == "host" then
    let q := pendingQueue db0 device_id
    let ms := (drainAux sendOk 0 q).1
    let ids := (drainAux sendOk 0 q).2
    (closeEvts ++ ms.map ConnEvent.sentPending ++
       [.greeting device_id, .readLoopStart],
     markDelivered db0 ids, reg2)
  else
    (closeEvts ++ [.greeting device_id, .readLoopStart], db0, reg2)

/-! ## Federated login (src/main.py, `google_login`) -/

/-- The verified identity-token payload: `sub` and optional `email`. -/
structure GooglePayload where
  sub : String
  email : Option String
  deriving Repr, DecidableEq

/-- `email.split("@")[0]`: everything before the first "@" (the whole
string when "@" does not occur), over the character list so that it
evaluates by kernel reduction. -/
def emailLocalPart (e : String) : String :=
  String.mk (e.data.takeWhile (fun c => c != '@'))

/-- `base_username = email.split("@")[0] if email else
f"google_{google_id[:8]}"` (src/main.py line 176). -/
def baseUsername (p : GooglePayload) : String :=
  match p.email with
  | some e => emailLocalPart e
  | none => "google_" ++ p.sub.take 8

/-- The k-th candidate of the uniqueness loop: `base`, then
`f"{base}{counter}"` for counter = 1, 2, …. -/
def candidateUsername (base : String) : Nat → String
  | 0 => base
  | Nat.succ n => base ++ toString (n + 1)

/-- The `while` loop of src/main.py lines 177-181, with fuel. -/
def pickUsernameAux (taken : List String) (base : String) :
    Nat → Nat → String
  | 0, k => candidateUsername base k
  | fuel + 1, k =>
    if taken.contains (candidateUsername base k) then
      pickUsernameAux taken base fuel (k + 1)
    else candidateUsername base k

/-- Derive a unique username; `taken.length + 1` tries always suffice. -/
def pickUsername (taken : List String) (base : String) : String :=
  pickUsernameAux taken base (taken.length + 1) 0

/-- Outcome of `google_login` after token verification. -/
inductive LoginOutcome
  | existingByGoogleId (user_id : Nat)
  | linkedByEmail (user_id : Nat)
  | created (user : User)
  deriving Repr, DecidableEq

/-- `google_login` (src/main.py lines 156-189): match by `google_id`,
else link by `email`, else auto-create a user with a derived username. -/
def googleLogin (db : DB) (p : GooglePayload) : LoginOutcome × DB :=
  match db.users.find? (fun u => u.google_id == some p.sub) with
  | some u => (.existingByGoogleId u.id, db)
  | none =>
    let byEmail : Option User :=
      match p.email with
      | some e => db.users.find? (fun u => u.email == some e)
      | none => none
    match byEmail with
    | some u =>
      (.linkedByEmail u.id,
       { db with users := db.users.map (fun v =>
           if v.id == u.id then { v with google_id := some p.sub } else v) })
    | none =>
      let username := pickUsername (db.users.map (fun u => u.username))
        (baseUsername p)
      let user : User :=
        { id := db.nextId, username := username, email := p.email,
          google_id := some p.sub }
      (.created user,
       { db with users := db.users ++ [user], nextId := db.nextId + 1 })

theorem length_filter_lt_of_mem_not {α : Type} (p : α → Bool) (l : List α) (a : α)
    (ha : a ∈ l) (hpa : p a = false) : (l.filter p).length < l.length := by
  induction l with
  | nil => cases ha
  | cons x xs ih =>
    rcases List.mem_cons.mp ha with h | h
    · subst h
      have h1 := List.length_filter_le p xs
      rw [List.filter_cons, if_neg (by simp [hpa])]
      simp only [List.length_cons]
      omega
    · have h1 := ih h
      rw [List.filter_cons]
      by_cases hx : p x = true
      · rw [if_pos hx]
        simp only [List.length_cons]
        omega
      · rw [if_neg hx]
        simp only [List.length_cons]
        omega

/-- Claim C9: each rate-limiter call first prunes timestamps older than 60
seconds, fails when at least 5 remain and otherwise records the current
time; the 6th attempt within 60 s of the first recorded one is rejected,
and the first attempt at least 60 s after the oldest recorded one is
accepted. -/
theorem checkRateLimit_window (now t1 : ℤ) (l : List ℤ)
    (hmem : t1 ∈ l) (hmin : ∀ t ∈ l, t1 ≤ t) (hle : ∀ t ∈ l, t ≤ now) :
    (checkRateLimit now l = none ↔ AUTH_RATE_LIMIT ≤ (pruneAttempts now l).length)
    ∧ (checkRateLimit now l ≠ none →
        checkRateLimit now l = some (pruneAttempts now l ++ [now]))
    ∧ (l.length = 5 → now - t1 < 60 → checkRateLimit now l = none)
    ∧ (l.length ≤ 5 → 60 ≤ now - t1 →
        checkRateLimit now l = some (pruneAttempts now l ++ [now])) := by
  refine ⟨?_, ?_, ?_, ?_⟩
  · by_cases h : AUTH_RATE_LIMIT ≤ (pruneAttempts now l).length <;>
      simp [checkRateLimit, h]
  · by_cases h : AUTH_RATE_LIMIT ≤ (pruneAttempts now l).length <;>
      simp [checkRateLimit, h]
  · intro hlen hwin
    have hall : pruneAttempts now l = l := by
      apply List.filter_eq_self.mpr
      intro t ht
      have h1 : t1 ≤ t := hmin t ht
      have h2 : now - t < AUTH_RATE_WINDOW := by
        have h60 : (AUTH_RATE_WINDOW : ℤ) = 60 := rfl
        rw [h60]
        linarith
      exact decide_eq_true h2
    have hge : AUTH_RATE_LIMIT ≤ (pruneAttempts now l).length := by
      rw [hall, hlen]
      decide
    simp [checkRateLimit, hge]
  · intro hlen hold
    have hfail : (fun t => decide (now - t < AUTH_RATE_WINDOW)) t1 = false := by
      simp only [decide_eq_false_iff_not, not_lt]
      show AUTH_RATE_WINDOW ≤ now - t1
      have h60 : (AUTH_RATE_WINDOW : ℤ) = 60 := rfl
      rw [h60]
      linarith
    have hlt : (pruneAttempts now l).length < l.length :=
      length_filter_lt_of_mem_not _ l t1 hmem hfail
    have hng : ¬ AUTH_RATE_LIMIT ≤ (pruneAttempts now l).length := by
      have h5 : (pruneAttempts now l).length < 5 := lt_of_lt_of_le hlt hlen
      simpa [AUTH_RATE_LIMIT] using h5
    simp [checkRateLimit, hng]

/-- Concrete instance of the rate-limiter theorem: five attempts recorded
within the last 60 seconds, the 6th call at time 100 is rejected. -/
theorem checkRateLimit_window_witness :
    (checkRateLimit 100 [50, 60, 70, 80, 90] = none ↔
      AUTH_RATE_LIMIT ≤ (pruneAttempts 100 [50, 60, 70, 80, 90]).length)
    ∧ (checkRateLimit 100 [50, 60, 70, 80, 90] ≠ none →
        checkRateLimit 100 [50, 60, 70, 80, 90] =
          some (pruneAttempts 100 [50, 60, 70, 80, 90] ++ [100]))
    ∧ (([50, 60, 70, 80, 90] : List ℤ).length = 5 → (100 : ℤ) - 50 < 60 →
        checkRateLimit 100 [50, 60, 70, 80, 90] = none)
    ∧ (([50, 60, 70, 80, 90] : List ℤ).length ≤ 5 → (60 : ℤ) ≤ 100 - 50 →
        checkRateLimit 100 [50, 60, 70, 80, 90] =
          some (pruneAttempts 100 [50, 60, 70, 80, 90] ++ [100])) :=
  checkRateLimit_window 100 50 [50, 60, 70, 80, 90]
    (by decide) (by decide) (by decide)

/-- Claim C8 counterexample: with the rate limit already exceeded (five
attempts within the window) and a client device that does not exist,
`confirm_pairing` returns NOT_FOUND, not RATE_LIMITED — the device
verification runs before the rate limiter. -/
theorem confirmPairing_rate_limit_first_cex :
    confirmPairing {} [0, 0, 0, 0, 0] 1 "123456" 1 1 =
      .error ApiError.notFound
    ∧ ApiError.notFound ≠ ApiError.rateLimited := by
  exact ⟨rfl, by decide⟩

/-- Claim C8 (amended): `confirm_pairing` verifies the client device as
its first step and applies rate limiting on "pair:"+client_device_id
second; a caller that has exceeded the limit receives RATE_LIMITED only
when the supplied client device is valid, and NOT_FOUND otherwise. -/
theorem confirmPairing_check_order (db : DB) (rl : List ℤ) (now : ℤ)
    (code : String) (cid uid : Nat) :
    (findClientDevice db cid uid = none →
      confirmPairing db rl now code cid uid = .error ApiError.notFound)
    ∧ (∀ d, findClientDevice db cid uid = some d →
        checkRateLimit now rl = none →
        confirmPairing db rl now code cid uid = .error ApiError.rateLimited) := by
  constructor
  · intro h
    unfold confirmPairing
    rw [h]
  · intro d hd hrl
    unfold confirmPairing
    rw [hd, hrl]

/-- Concrete instance of the check-order theorem: a registered client
device plus an exhausted limit yields RATE_LIMITED; an absent device
yields NOT_FOUND. -/
theorem confirmPairing_check_order_witness :
    confirmPairing {} [] 0 "123456" 1 1 = .error ApiError.notFound
    ∧ confirmPairing
        { devices := [{ id := 1, user_id := 7, name := "c",
                        device_type := "client" }] }
        [0, 0, 0, 0, 0] 1 "123456" 1 7 = .error ApiError.rateLimited := by
  constructor
  · exact (confirmPairing_check_order {} [] 0 "123456" 1 1).1 (by rfl)
  · exact (confirmPairing_check_order
      { devices := [{ id := 1, user_id := 7, name := "c",
                      device_type := "client" }] }
      [0, 0, 0, 0, 0] 1 "123456" 1 7).2
      { id := 1, user_id := 7, name := "c", device_type := "client" }
      (by rfl) (by decide)

/-- Claim C7: when a Pairing row for the code's host and the given client
already exists, `confirm_pairing` on a fresh valid code marks the code
used and returns already_paired with the existing pairing id, creating no
second row; otherwise it creates the Pairing, marks the code used and
returns paired. -/
theorem confirmPairing_idempotent (db : DB) (rl rl2 : List ℤ) (now : ℤ)
    (code : String) (cid uid : Nat) (pc : PairingCode) (d : Device)
    (hdev : findClientDevice db cid uid = some d)
    (hrl : checkRateLimit now rl = some rl2)
    (hpc : findValidCode db now code = some pc)
    (huser : pc.user_id = uid) :
    (∀ e, db.pairings.find? (fun p =>
          p.host_device_id == pc.host_device_id &&
          p.client_device_id == cid) = some e →
      confirmPairing db rl now code cid uid =
        .ok ({ status := "already_paired", pairing_id := e.id },
             markCodeUsed db pc.id, rl2)
      ∧ (markCodeUsed db pc.id).pairings = db.pairings)
    ∧ (db.pairings.find? (fun p =>
          p.host_device_id == pc.host_device_id &&
          p.client_device_id == cid) = none →
      confirmPairing db rl now code cid uid =
        .ok ({ status := "paired", pairing_id := db.nextId },
             markCodeUsed
               { db with
                 pairings := (db.pairings ++
                   [{ id := db.nextId, host_device_id := pc.host_device_id,
                      client_device_id := cid }]),
                 nextId := db.nextId + 1 } pc.id, rl2))
    ∧ (∀ c ∈ (markCodeUsed db pc.id).pairingCodes, c.id = pc.id →
        c.used = true) := by
  have hne : (pc.user_id != uid) = false := by
    simp [huser]
  refine ⟨?_, ?_, ?_⟩
  · intro e he
    constructor
    · simp only [confirmPairing, hdev, hrl, hpc, hne, Bool.false_eq_true,
        if_false, he]
    · rfl
  · intro he
    simp only [confirmPairing, hdev, hrl, hpc, hne, Bool.false_eq_true,
      if_false, he]
  · intro c hc hid
    rcases List.mem_map.mp hc with ⟨c0, hc0, hfc⟩
    by_cases h : c0.id = pc.id
    · rw [← hfc]
      simp [h]
    · have hkeep : (if c0.id == pc.id then { c0 with used := true } else c0)
          = c0 := by
        simp [h]
      rw [hkeep] at hfc
      exact absurd (hfc ▸ hid) h

/-- Concrete instance of the idempotency theorem: a second confirm with a
fresh code for an already-paired (host, client) yields already_paired
with the existing pairing id and an unchanged pairing table. -/
theorem confirmPairing_idempotent_witness :
    confirmPairing
        { devices := [{ id := 1, user_id := 7, name := "c",
                        device_type := "client" }],
          pairingCodes := [{ id := 3, user_id := 7, host_device_id := 2,
                             code := "111111", expires_at := 100,
                             used := false, created_at := 0 }],
          pairings := [{ id := 9, host_device_id := 2,
                         client_device_id := 1 }],
          nextId := 10 }
        [] 5 "111111" 1 7 =
      .ok ({ status := "already_paired", pairing_id := 9 },
           markCodeUsed
             { devices := [{ id := 1, user_id := 7, name := "c",
                             device_type := "client" }],
               pairingCodes := [{ id := 3, user_id := 7, host_device_id := 2,
                                  code := "111111", expires_at := 100,
                                  used := false, created_at := 0 }],
               pairings := [{ id := 9, host_device_id := 2,
                              client_device_id := 1 }],
               nextId := 10 } 3, [5]) := by
  exact ((confirmPairing_idempotent
    { devices := [{ id := 1, user_id := 7, name := "c",
                    device_type := "client" }],
      pairingCodes := [{ id := 3, user_id := 7, host_device_id := 2,
                         code := "111111", expires_at := 100,
                         used := false, created_at := 0 }],
      pairings := [{ id := 9, host_device_id := 2, client_device_id := 1 }],
      nextId := 10 }
    [] [5] 5 "111111" 1 7
    { id := 3, user_id := 7, host_device_id := 2, code := "111111",
      expires_at := 100, used := false, created_at := 0 }
    { id := 1, user_id := 7, name := "c", device_type := "client" }
    (by decide) (by decide) (by decide) (by decide)).1
    { id := 9, host_device_id := 2, client_device_id := 1 } (by decide)).1

theorem liveFilter_invalidate_nil (l : List PairingCode) (hid : Nat) (now : ℤ) :
    (invalidateCodes l hid).filter (fun c =>
      c.host_device_id == hid && c.used == false &&
        decide (now < c.expires_at)) = [] := by
  induction l with
  | nil => rfl
  | cons c rest ih =>
    simp only [invalidateCodes, List.map_cons, List.filter_cons] at ih ⊢
    by_cases hhost : c.host_device_id = hid
    · cases hu : c.used with
      | true =>
        rw [if_neg (by simp [hu])]
        exact ih
      | false =>
        rw [if_neg (by simp [hhost, hu])]
        exact ih
    · rw [if_neg (by simp [hhost])]
      exact ih

theorem liveFilter_invalidate_other (l : List PairingCode) (hid h : Nat)
    (now : ℤ) (hne : h ≠ hid) :
    (invalidateCodes l hid).filter (fun c =>
      c.host_device_id == h && c.used == false &&
        decide (now < c.expires_at)) =
      l.filter (fun c =>
        c.host_device_id == h && c.used == false &&
          decide (now < c.expires_at)) := by
  induction l with
  | nil => rfl
  | cons c rest ih =>
    simp only [invalidateCodes, List.map_cons, List.filter_cons] at ih ⊢
    by_cases hhost : c.host_device_id = hid
    · have hno : c.host_device_id ≠ h := by
        rw [hhost]
        omega
      cases hu : c.used with
      | true =>
        rw [if_neg (by simp [hu, hno]), if_neg (by simp [hno])]
        exact ih
      | false =>
        rw [if_neg (by simp [hhost, hu, hno, Ne.symm hne]),
          if_neg (by simp [hno])]
        exact ih
    · rw [if_neg (show
        ¬((c.host_device_id == hid && c.used == false) = true) by
          simp [hhost])]
      rw [ih]

/-- Claim C6: issuing a pairing code first marks every unused code of that
host used, then inserts a fresh 6-decimal-digit code expiring 10 minutes
later, in one transaction, returning the code with
expires_in_seconds = 600; afterwards the issuing host has exactly one
unused unexpired code (the fresh one) and every other host's live codes
are untouched, so at most one live code per host holds at any instant. -/
theorem createPairingCode_invariant (db : DB) (now : ℤ)
    (pick : Fin 6 → Fin 10) (hid uid : Nat) (d : Device)
    (hdev : findHostDevice db hid uid = some d) :
    createPairingCode db now pick hid uid =
      .ok ({ code := generateCode pick, expires_in_seconds := 600 },
        { db with
          pairingCodes := invalidateCodes db.pairingCodes hid ++
            [freshCodeRow db now pick hid uid],
          nextId := db.nextId + 1 })
    ∧ (generateCode pick).length = 6
    ∧ (∀ ch ∈ (generateCode pick).data, ch.isDigit = true)
    ∧ liveCodes
        { db with
          pairingCodes := invalidateCodes db.pairingCodes hid ++
            [freshCodeRow db now pick hid uid],
          nextId := db.nextId + 1 } hid now =
        [freshCodeRow db now pick hid uid]
    ∧ (∀ h, h ≠ hid →
        liveCodes
          { db with
            pairingCodes := invalidateCodes db.pairingCodes hid ++
              [freshCodeRow db now pick hid uid],
            nextId := db.nextId + 1 } h now =
          liveCodes db h now) := by
  refine ⟨?_, ?_, ?_, ?_, ?_⟩
  · simp only [createPairingCode, hdev]
  · simp [generateCode, String.length]
  · intro ch hch
    have hdigit : ∀ v : Fin 10,
        ("0123456789".data.getD v.val (Char.ofNat 48)).isDigit = true := by
      decide
    simp only [generateCode, String.mk] at hch
    rcases List.mem_map.mp hch with ⟨i, _, hi⟩
    rw [← hi]
    exact hdigit (pick i)
  · unfold liveCodes
    simp only [List.filter_append, liveFilter_invalidate_nil,
      List.nil_append, List.filter_cons, List.filter_nil]
    rw [if_pos (by
      unfold freshCodeRow
      simp only [Bool.and_eq_true, beq_iff_eq, decide_eq_true_eq,
        true_and, and_true]
      omega)]
  · intro h hne
    unfold liveCodes
    simp only [List.filter_append, liveFilter_invalidate_other _ _ _ _ hne,
      List.filter_cons, List.filter_nil]
    have hno : (freshCodeRow db now pick hid uid).host_device_id ≠ h := by
      unfold freshCodeRow
      simp only []
      omega
    rw [if_neg (by simp [hno]), List.append_nil]

/-- Concrete instance of the code-issuance theorem, at a store holding one
still-live prior code for the host: the prior code is invalidated and the
fresh row is the sole live code for that host. -/
theorem createPairingCode_invariant_witness :
    createPairingCode
        { devices := [{ id := 2, user_id := 7, name := "h", device_type := "host" }],
          pairingCodes := [{ id := 3, user_id := 7, host_device_id := 2, code := "111111", expires_at := 100, used := false, created_at := 0 }],
          nextId := 4 }
        5 (fun _ => 3) 2 7 =
      .ok ({ code := generateCode (fun _ => 3), expires_in_seconds := 600 },
        { devices := [{ id := 2, user_id := 7, name := "h", device_type := "host" }],
          pairingCodes := invalidateCodes [{ id := 3, user_id := 7, host_device_id := 2, code := "111111", expires_at := 100, used := false, created_at := 0 }] 2 ++
            [freshCodeRow
              { devices := [{ id := 2, user_id := 7, name := "h", device_type := "host" }],
                pairingCodes := [{ id := 3, user_id := 7, host_device_id := 2, code := "111111", expires_at := 100, used := false, created_at := 0 }],
                nextId := 4 } 5 (fun _ => 3) 2 7],
          nextId := 5 }) :=
  (createPairingCode_invariant
    { devices := [{ id := 2, user_id := 7, name := "h", device_type := "host" }],
      pairingCodes := [{ id := 3, user_id := 7, host_device_id := 2, code := "111111", expires_at := 100, used := false, created_at := 0 }],
      nextId := 4 }
    5 (fun _ => 3) 2 7
    { id := 2, user_id := 7, name := "h", device_type := "host" }
    (by decide)).1

theorem getConn_cons (a b d : Nat) (rest : Registry) :
    getConn ((a, b) :: rest) d = if a == d then some b else getConn rest d := by
  cases h : (a == d) with
  | false => simp [getConn, List.find?_cons, h]
  | true => simp [getConn, List.find?_cons, h]

theorem getConn_map_replace (reg : Registry) (did s d : Nat) :
    getConn (reg.map (fun p => if p.1 == did then (did, s) else p)) d =
      if d = did then (getConn reg did).map (fun _ => s)
      else getConn reg d := by
  induction reg with
  | nil => by_cases h : d = did <;> simp [getConn, h]
  | cons p rest ih =>
    obtain ⟨a, b⟩ := p
    by_cases ha : a = did
    · subst ha
      by_cases hd : d = a
      · subst hd
        simp [getConn_cons, ih]
      · simp [hd] at ih
        simp [getConn_cons, hd, Ne.symm hd, ih]
    · by_cases hd : d = did
      · subst hd
        simp at ih
        simp [getConn_cons, ha, Ne.symm ha, ih]
      · simp [hd] at ih
        simp [getConn_cons, ha, hd, ih]

theorem getConn_setConn (reg : Registry) (did s d : Nat) :
    getConn (setConn reg did s) d =
      if d = did then some s else getConn reg d := by
  unfold setConn
  by_cases hany : reg.any (fun p => p.1 == did) = true
  · rw [if_pos hany, getConn_map_replace]
    by_cases hd : d = did
    · rw [if_pos hd, if_pos hd]
      rcases List.any_eq_true.mp hany with ⟨x, hx, hpx⟩
      rcases hg : getConn reg did with _ | v
      · exfalso
        unfold getConn at hg
        rcases Option.map_eq_none'.mp hg with hfind
        exact (List.find?_eq_none.mp hfind x hx) hpx
      · simp
    · rw [if_neg hd, if_neg hd]
  · rw [if_neg hany]
    unfold getConn
    rw [List.find?_append]
    by_cases hd : d = did
    · have hnone : reg.find? (fun p => p.1 == d) = none := by
        rw [List.find?_eq_none]
        intro x hx hpx
        apply hany
        apply List.any_eq_true.mpr
        refine ⟨x, hx, ?_⟩
        rw [← hd]
        exact hpx
      rw [hnone, if_pos hd]
      have : (did == d) = true := by
        simp [hd]
      simp [List.find?_cons, this]
    · have hlast : ([(did, s)] : Registry).find? (fun p => p.1 == d) = none := by
        have : (did == d) = false := by
          simp only [beq_eq_false_iff_ne, ne_eq]
          omega
        simp [List.find?_cons, this]
      rw [hlast, if_neg hd, Option.or_none]

theorem regWF_setConn (reg : Registry) (did s : Nat) (h : RegWF reg) :
    RegWF (setConn reg did s) := by
  unfold setConn
  by_cases hany : reg.any (fun p => p.1 == did) = true
  · rw [if_pos hany]
    unfold RegWF at h ⊢
    have hkeys : (reg.map (fun p => if p.1 == did then (did, s) else p)).map
        Prod.fst = reg.map Prod.fst := by
      rw [List.map_map]
      apply List.map_congr_left
      intro p _
      by_cases hp1 : p.1 = did <;> simp [hp1]
    rw [hkeys]
    exact h
  · rw [if_neg hany]
    unfold RegWF at h ⊢
    rw [List.map_append]
    apply List.nodup_append.mpr
    refine ⟨h, by simp, ?_⟩
    intro a ha hb
    simp only [List.map_cons, List.map_nil, List.mem_singleton] at hb
    apply hany
    rcases List.mem_map.mp ha with ⟨x, hx, hfx⟩
    apply List.any_eq_true.mpr
    refine ⟨x, hx, ?_⟩
    simp [hfx, hb]

theorem map_replace_filter (reg : Registry) (did s : Nat) (h : RegWF reg)
    (hany : reg.any (fun p => p.1 == did) = true) :
    (reg.map (fun p => if p.1 == did then (did, s) else p)).filter
      (fun p => p.1 == did) = [(did, s)] := by
  induction reg with
  | nil => simp at hany
  | cons p rest ih =>
    obtain ⟨a, b0⟩ := p
    have hwfr : RegWF rest := by
      unfold RegWF at h ⊢
      rw [List.map_cons] at h
      exact (List.nodup_cons.mp h).2
    rw [List.map_cons]
    by_cases ha : a = did
    · rw [show (if ((a, b0).1 == did) then (did, s) else (a, b0)) = (did, s)
        by simp [ha]]
      rw [List.filter_cons, if_pos (by simp)]
      have hnil : (rest.map (fun p =>
          if p.1 == did then (did, s) else p)).filter
          (fun p => p.1 == did) = [] := by
        rw [List.filter_eq_nil_iff]
        intro x hx hpx
        rcases List.mem_map.mp hx with ⟨y, hy, hfy⟩
        have hky : x.1 = y.1 := by
          rw [← hfy]
          by_cases hy1 : y.1 = did <;> simp [hy1]
        have hxk : x.1 = did := by simpa using hpx
        have hyd : y.1 = did := by
          rw [← hky]
          exact hxk
        have hmem : a ∈ rest.map Prod.fst := by
          apply List.mem_map.mpr
          refine ⟨y, hy, ?_⟩
          rw [hyd]
          exact ha.symm
        unfold RegWF at h
        rw [List.map_cons] at h
        exact (List.nodup_cons.mp h).1 hmem
      rw [hnil]
    · rw [show (if ((a, b0).1 == did) then (did, s) else (a, b0)) = (a, b0)
        by simp [ha]]
      rw [List.filter_cons, if_neg (by simp [ha])]
      apply ih hwfr
      have h2 := hany
      rw [List.any_cons] at h2
      simp only [Bool.or_eq_true] at h2
      rcases h2 with h1 | h1
      · exact absurd (by simpa using h1) ha
      · exact h1

theorem setConn_sole (reg : Registry) (did s : Nat) (h : RegWF reg) :
    (setConn reg did s).filter (fun p => p.1 == did) = [(did, s)] := by
  unfold setConn
  by_cases hany : reg.any (fun p => p.1 == did) = true
  · rw [if_pos hany]
    exact map_replace_filter reg did s h hany
  · rw [if_neg hany]
    rw [List.filter_append]
    have hnil : reg.filter (fun p => p.1 == did) = [] := by
      rw [List.filter_eq_nil_iff]
      intro x hx hpx
      exact hany (List.any_eq_true.mpr ⟨x, hx, hpx⟩)
    rw [hnil, List.nil_append, List.filter_cons, if_pos (by simp)]
    rfl

theorem getConn_filter_ne (reg : Registry) (did d : Nat) (hd : d ≠ did) :
    getConn (reg.filter (fun p => p.1 != did)) d = getConn reg d := by
  induction reg with
  | nil => rfl
  | cons p rest ih =>
    obtain ⟨a, b⟩ := p
    rw [List.filter_cons]
    by_cases ha : a = did
    · rw [if_neg (by simp [ha])]
      rw [ih, getConn_cons, if_neg (by
        have : (a == d) = false := by
          simp only [beq_eq_false_iff_ne, ne_eq]
          omega
        simp [this])]
    · rw [if_pos (by simp [ha])]
      rw [getConn_cons, getConn_cons, ih]

/-- Claim C5: the session registry keeps at most one entry per device id;
binding a new session evicts any predecessor, whose channel is closed
with code 1008 and reason "Replaced by new connection", and leaves the
new session as the sole registry entry; disconnect removes the entry only
when the registered session is identically the departing one. -/
theorem registry_exclusive (db : DB) (reg : Registry)
    (sendOk : Nat → Bool) (now : ℤ) (did s sOld : Nat) (dt : String)
    (hwf : RegWF reg) :
    RegWF (setConn reg did s)
    ∧ getConn (setConn reg did s) did = some s
    ∧ (∀ d, d ≠ did → getConn (setConn reg did s) d = getConn reg d)
    ∧ (setConn reg did s).filter (fun p => p.1 == did) = [(did, s)]
    ∧ (getConn reg did = some sOld →
        (connectSequence db reg sendOk now did s dt).1.head? =
          some (ConnEvent.closedOld 1008 "Replaced by new connection"))
    ∧ (connectSequence db reg sendOk now did s dt).2.2 = setConn reg did s
    ∧ (sOld ≠ s → unbindIf (setConn reg did s) did sOld = setConn reg did s)
    ∧ getConn (unbindIf (setConn reg did s) did s) did = none
    ∧ (∀ d, d ≠ did →
        getConn (unbindIf (setConn reg did s) did s) d =
          getConn (setConn reg did s) d) := by
  have hself : getConn (setConn reg did s) did = some s := by
    rw [getConn_setConn, if_pos rfl]
  refine ⟨regWF_setConn reg did s hwf, hself, ?_, setConn_sole reg did s hwf,
    ?_, ?_, ?_, ?_, ?_⟩
  · intro d hd
    rw [getConn_setConn, if_neg hd]
  · intro hget
    unfold connectSequence
    rw [hget]
    by_cases hdt : (dt == "host") = true
    · simp [hdt]
    · simp [hdt]
  · unfold connectSequence
    by_cases hdt : (dt == "host") = true
    · simp [hdt]
    · simp [hdt]
  · intro hne
    unfold unbindIf
    rw [if_neg]
    rw [hself]
    simp only [Option.some.injEq]
    omega
  · unfold unbindIf
    rw [if_pos hself]
    unfold getConn
    have hfind : ((setConn reg did s).filter
        (fun p => p.1 != did)).find? (fun p => p.1 == did) = none := by
      rw [List.find?_eq_none]
      intro x hx hpx
      have h2 := (List.mem_filter.mp hx).2
      simp only [bne_iff_ne, ne_eq] at h2
      exact h2 (by simpa using hpx)
    rw [hfind]
    rfl
  · intro d hd
    unfold unbindIf
    rw [if_pos hself]
    exact getConn_filter_ne (setConn reg did s) did d hd

/-- Concrete instance of the registry theorem: device 1 already bound to
session 10 is rebound to session 30; the registry stays single-entry per
device and the ABA-guarded unbind behaves as stated. -/
theorem registry_exclusive_witness :
    getConn (setConn [(1, 10), (2, 20)] 1 30) 1 = some 30
    ∧ (setConn [(1, 10), (2, 20)] 1 30).filter (fun p => p.1 == 1) =
        [(1, 30)]
    ∧ (connectSequence {} [(1, 10), (2, 20)] (fun _ => true) 0 1 30
        "client").1.head? =
        some (ConnEvent.closedOld 1008 "Replaced by new connection")
    ∧ unbindIf (setConn [(1, 10), (2, 20)] 1 30) 1 10 =
        setConn [(1, 10), (2, 20)] 1 30
    ∧ getConn (unbindIf (setConn [(1, 10), (2, 20)] 1 30) 1 30) 1 = none := by
  have h := registry_exclusive {} [(1, 10), (2, 20)] (fun _ => true) 0 1 30 10
    "client" (by unfold RegWF; decide)
  exact ⟨h.2.1, h.2.2.2.1, h.2.2.2.2.1 (by decide), h.2.2.2.2.2.2.1 (by decide),
    h.2.2.2.2.2.2.2.1⟩

/-- Claim C3: a session frame carrying an explicit `to_device_id` is
forwarded to that device's live session with `from_device_id` stamped to
the sender, for every store whatsoever — no Pairing row linking sender
and target and no common owner is required, so such a frame can reach a
device owned by a different user. -/
theorem wsLoop_explicit_target_no_auth (db : DB) (reg : Registry)
    (sendOk : Nat → Bool) (now : ℤ) (device_id t s : Nat)
    (device_type : String) (msg : WireMsg)
    (htype : msg.mtype = "command" ∨ msg.mtype = "event" ∨
      msg.mtype = "webrtc")
    (hdt : device_type = "client" ∨ device_type = "host")
    (ht : msg.to_device_id = some t) (ht0 : t ≠ 0)
    (hconn : getConn reg t = some s) (hsend : sendOk s = true) :
    (wsLoopStep db reg sendOk now device_id device_type msg).1 =
      WsEffect.forwarded t { msg with from_device_id := some device_id } := by
  have hexp : explicitTarget msg = some t := by
    unfold explicitTarget
    rw [ht]
    simp [ht0]
  have hres : resolveTarget db device_id device_type msg = .ok t := by
    unfold resolveTarget
    rcases hdt with h | h <;> rw [h] <;> simp [hexp]
  have hping : (msg.mtype == "ping") = false := by
    rcases htype with h | h | h <;> rw [h] <;> decide
  have hallow : ALLOWED_WS_TYPES.contains msg.mtype = true := by
    rcases htype with h | h | h <;> rw [h] <;> decide
  unfold wsLoopStep
  rw [hping, hallow]
  simp only [Bool.false_eq_true, if_false, Bool.not_true, hres, hconn,
    hsend, if_true]

/-- Concrete instance of the no-authorization forwarding theorem: client
device 1 (owner 100) sends a command frame addressed to host device 2
(owner 200); no pairing exists, yet the frame is forwarded with
from_device_id = 1. -/
theorem wsLoop_explicit_target_no_auth_witness :
    (wsLoopStep
      { devices := [{ id := 1, user_id := 100, name := "c", device_type := "client" },
                    { id := 2, user_id := 200, name := "h", device_type := "host" }] }
      [(2, 5)] (fun _ => true) 0 1 "client"
      { mtype := "command", to_device_id := some 2 }).1 =
      WsEffect.forwarded 2
        { mtype := "command", to_device_id := some 2,
          from_device_id := some 1 } := by
  exact wsLoop_explicit_target_no_auth
    { devices := [{ id := 1, user_id := 100, name := "c", device_type := "client" },
                  { id := 2, user_id := 200, name := "h", device_type := "host" }] }
    [(2, 5)] (fun _ => true) 0 1 2 5 "client"
    { mtype := "command", to_device_id := some 2 }
    (Or.inl rfl) (Or.inl rfl) rfl (by decide) (by decide) rfl

/-- Claim C1 counterexample: an inbound session frame addressed to an
offline HOST device is answered with a `target_offline` error and no
`PendingCommand` row is inserted — the read loop never queues, contrary
to the claim that both entry points queue for offline hosts. -/
theorem relay_queue_cex :
    (wsLoopStep
        { devices := [{ id := 2, user_id := 7, name := "h", device_type := "host" }] }
        [] (fun _ => true) 0 1 "client"
        { mtype := "command", to_device_id := some 2,
          req_id := some "r1" }).1 =
      WsEffect.targetOffline 2 (some "r1")
    ∧ (wsLoopStep
        { devices := [{ id := 2, user_id := 7, name := "h", device_type := "host" }] }
        [] (fun _ => true) 0 1 "client"
        { mtype := "command", to_device_id := some 2,
          req_id := some "r1" }).2.pendingCommands = [] := by
  exact ⟨rfl, rfl⟩

/-- Claim C1 (amended): only the HTTP command path queues.  When the
target has no live session, `_relay_command` inserts
`PendingCommand(host = target, from = from_device_id, payload = message
with req_id stamped, delivered = false)` and returns queued with the
req_id; an inbound session frame whose resolved target has no live
session — host or not — instead gets `{error: target_offline,
target_device_id, req_id}` on the sender's channel and nothing is
queued. -/
theorem relay_queue_amended (db : DB) (reg : Registry)
    (sendOk : Nat → Bool) (now : ℤ) (fresh : String) (hid fid : Nat)
    (msg : WireMsg) (hoff : getConn reg hid = none) :
    ((relayCommand db reg sendOk now fresh hid msg fid).1 =
        RelayResult.queued (reqIdOf msg fresh)
      ∧ (relayCommand db reg sendOk now fresh hid msg fid).2.pendingCommands =
          db.pendingCommands ++
            [{ id := db.nextId + 1, host_device_id := hid,
               from_device_id := fid,
               payload := { msg with req_id := some (reqIdOf msg fresh) },
               delivered := false, created_at := now }])
    ∧ (∀ device_id device_type t,
        (msg.mtype == "ping") = false →
        ALLOWED_WS_TYPES.contains msg.mtype = true →
        resolveTarget db device_id device_type msg = .ok t →
        getConn reg t = none →
        (wsLoopStep db reg sendOk now device_id device_type msg).1 =
          WsEffect.targetOffline t msg.req_id
        ∧ (wsLoopStep db reg sendOk now device_id device_type
            msg).2.pendingCommands = db.pendingCommands) := by
  constructor
  · constructor
    · simp only [relayCommand, hoff, logMessage]
    · simp only [relayCommand, hoff, logMessage]
  · intro device_id device_type t hping hallow hres htoff
    constructor
    · unfold wsLoopStep
      rw [hping, hallow]
      simp only [Bool.false_eq_true, if_false, Bool.not_true, hres, htoff]
    · unfold wsLoopStep
      rw [hping, hallow]
      simp only [Bool.false_eq_true, if_false, Bool.not_true, hres, htoff,
        logMessage]

/-- Concrete instance of the amended queueing theorem: an HTTP command to
offline host 2 queues a pending row and reports queued; the matching
session frame gets target_offline and queues nothing. -/
theorem relay_queue_amended_witness :
    (relayCommand { nextId := 4 } [] (fun _ => true) 0 "u1" 2
        { mtype := "command", cmd := some "SEND_SMS" } 1).1 =
      RelayResult.queued "u1"
    ∧ (relayCommand { nextId := 4 } [] (fun _ => true) 0 "u1" 2
        { mtype := "command", cmd := some "SEND_SMS" } 1).2.pendingCommands =
        [{ id := 5, host_device_id := 2, from_device_id := 1,
           payload := { mtype := "command", cmd := some "SEND_SMS",
                        req_id := some "u1" },
           delivered := false, created_at := 0 }] := by
  have h := (relay_queue_amended { nextId := 4 } [] (fun _ => true) 0 "u1" 2 1
    { mtype := "command", cmd := some "SEND_SMS" } rfl).1
  exact ⟨h.1, h.2⟩

/-- Claim C4 counterexample: a session frame forwarded to a live target
whose channel send fails is merely logged — the read loop reports
nothing to the sender (no DELIVERY_FAILED / 502) and queues nothing. -/
theorem delivery_failed_cex :
    (wsLoopStep
        { devices := [{ id := 2, user_id := 7, name := "h", device_type := "host" }] }
        [(2, 5)] (fun _ => false) 0 1 "client"
        { mtype := "command", to_device_id := some 2 }).1 =
      WsEffect.forwardFailedLogged 2
    ∧ (wsLoopStep
        { devices := [{ id := 2, user_id := 7, name := "h", device_type := "host" }] }
        [(2, 5)] (fun _ => false) 0 1 "client"
        { mtype := "command", to_device_id := some 2 }).2.pendingCommands = []
    ∧ WsEffect.forwardFailedLogged 2 ≠
        WsEffect.targetOffline 2 none := by
  exact ⟨rfl, rfl, by decide⟩

/-- Claim C4 (amended): when the target has a live session and the
channel send fails, neither entry point queues a PendingCommand; the HTTP
path returns DELIVERY_FAILED (mapped to 502), while the session-frame
path only logs the failure and continues, reporting nothing to the
sender. -/
theorem delivery_failed_amended (db : DB) (reg : Registry)
    (sendOk : Nat → Bool) (now : ℤ) (fresh : String) (hid fid s : Nat)
    (msg : WireMsg) (hconn : getConn reg hid = some s)
    (hfail : sendOk s = false) :
    ((relayCommand db reg sendOk now fresh hid msg fid).1 =
        RelayResult.deliveryFailed
      ∧ (relayCommand db reg sendOk now fresh hid msg fid).2.pendingCommands =
          db.pendingCommands)
    ∧ (∀ device_id device_type t s2,
        (msg.mtype == "ping") = false →
        ALLOWED_WS_TYPES.contains msg.mtype = true →
        resolveTarget db device_id device_type msg = .ok t →
        getConn reg t = some s2 → sendOk s2 = false →
        (wsLoopStep db reg sendOk now device_id device_type msg).1 =
          WsEffect.forwardFailedLogged t
        ∧ (wsLoopStep db reg sendOk now device_id device_type
            msg).2.pendingCommands = db.pendingCommands) := by
  constructor
  · constructor
    · simp only [relayCommand, hconn, logMessage, hfail, Bool.false_eq_true,
        if_false]
    · simp only [relayCommand, hconn, logMessage, hfail, Bool.false_eq_true,
        if_false]
  · intro device_id device_type t s2 hping hallow hres ht hf2
    constructor
    · unfold wsLoopStep
      rw [hping, hallow]
      simp only [Bool.false_eq_true, if_false, Bool.not_true, hres, ht, hf2]
    · unfold wsLoopStep
      rw [hping, hallow]
      simp only [Bool.false_eq_true, if_false, Bool.not_true, hres, ht, hf2,
        logMessage]

/-- Concrete instance of the amended delivery-failure theorem: host 2 is
live on session 5 but the channel send fails; the HTTP relay reports
DELIVERY_FAILED and the pending-command table is untouched. -/
theorem delivery_failed_amended_witness :
    (relayCommand { nextId := 4 } [(2, 5)] (fun _ => false) 0 "u1" 2
        { mtype := "command", cmd := some "SEND_SMS" } 1).1 =
      RelayResult.deliveryFailed
    ∧ (relayCommand { nextId := 4 } [(2, 5)] (fun _ => false) 0 "u1" 2
        { mtype := "command", cmd := some "SEND_SMS" } 1).2.pendingCommands =
        [] := by
  have h := (delivery_failed_amended { nextId := 4 } [(2, 5)]
    (fun _ => false) 0 "u1" 2 1 5
    { mtype := "command", cmd := some "SEND_SMS" } rfl rfl).1
  exact ⟨h.1, h.2⟩

theorem pickUsernameAux_spec (taken : List String) (base : String) :
    ∀ fuel k, (∃ j, j < fuel ∧ candidateUsername base (k + j) ∉ taken) →
      pickUsernameAux taken base fuel k ∉ taken
      ∧ ∃ j, pickUsernameAux taken base fuel k =
          candidateUsername base (k + j)
        ∧ ∀ i, i < j → candidateUsername base (k + i) ∈ taken := by
  intro fuel
  induction fuel with
  | zero =>
    rintro k ⟨j, hj, _⟩
    omega
  | succ n ih =>
    rintro k ⟨j, hj, hfree⟩
    unfold pickUsernameAux
    by_cases hk : taken.contains (candidateUsername base k) = true
    · rw [if_pos hk]
      have hkmem : candidateUsername base k ∈ taken := List.elem_iff.mp hk
      have hj0 : j ≠ 0 := by
        intro h0
        rw [h0, Nat.add_zero] at hfree
        exact hfree hkmem
      have hrec : ∃ j2, j2 < n ∧
          candidateUsername base (k + 1 + j2) ∉ taken := by
        refine ⟨j - 1, by omega, ?_⟩
        have : k + 1 + (j - 1) = k + j := by omega
        rw [this]
        exact hfree
      rcases ih (k + 1) hrec with ⟨hnotin, j2, hpick, hall⟩
      refine ⟨hnotin, j2 + 1, ?_, ?_⟩
      · rw [hpick]
        have : k + 1 + j2 = k + (j2 + 1) := by omega
        rw [this]
      · intro i hi
        cases i with
        | zero =>
          rw [Nat.add_zero]
          exact hkmem
        | succ i2 =>
          have : k + (i2 + 1) = k + 1 + i2 := by omega
          rw [this]
          exact hall i2 (by omega)
    · rw [if_neg hk]
      have hnot : candidateUsername base k ∉ taken := by
        intro hmem
        exact hk (List.elem_iff.mpr hmem)
      refine ⟨hnot, 0, by rw [Nat.add_zero], ?_⟩
      intro i hi
      omega

theorem exists_fresh_candidate (taken : List String) (base : String)
    (hnd : ((List.range (taken.length + 1)).map
      (candidateUsername base)).Nodup) :
    ∃ j, j < taken.length + 1 ∧ candidateUsername base j ∉ taken := by
  by_contra hcon
  push_neg at hcon
  have hsub : ((List.range (taken.length + 1)).map
      (candidateUsername base)) ⊆ taken := by
    intro x hx
    rcases List.mem_map.mp hx with ⟨j, hj, hfx⟩
    rw [← hfx]
    exact hcon j (List.mem_range.mp hj)
  have hle := List.Subperm.length_le (List.subperm_of_subset hnd hsub)
  rw [List.length_map, List.length_range] at hle
  omega

/-- Claim C10 counterexample: with no email present, the auto-created
username is "google_" followed by the first 8 characters of the subject —
not "fed_" as the claim states. -/
theorem google_username_cex :
    (googleLogin {} { sub := "abcdefgh123", email := none }).1 =
      LoginOutcome.created
        { id := 1, username := "google_abcdefgh", email := none,
          google_id := some "abcdefgh123" }
    ∧ "google_abcdefgh" ≠ "fed_abcdefgh" := by
  constructor
  · rfl
  · decide

/-- Claim C10 (amended): when no user matches by google_id or by email, a
new user is created with username base, base1, base2, … — the first name
not already in the store — where base is the part of the email before "@"
when an email is present and otherwise "google_" followed by the first 8
characters of the subject. -/
theorem google_username_derivation (db : DB) (p : GooglePayload)
    (hg : db.users.find? (fun u => u.google_id == some p.sub) = none)
    (he : ∀ e, p.email = some e →
      db.users.find? (fun u => u.email == some e) = none)
    (hnd : ((List.range ((db.users.map (fun u => u.username)).length + 1)).map
      (candidateUsername (baseUsername p))).Nodup) :
    ∃ u, (googleLogin db p).1 = LoginOutcome.created u
      ∧ (googleLogin db p).2.users = db.users ++ [u]
      ∧ u.id = db.nextId ∧ u.email = p.email ∧ u.google_id = some p.sub
      ∧ u.username =
          pickUsername (db.users.map (fun u => u.username)) (baseUsername p)
      ∧ u.username ∉ db.users.map (fun u => u.username)
      ∧ (∃ k, u.username = candidateUsername (baseUsername p) k
          ∧ ∀ i, i < k → candidateUsername (baseUsername p) i ∈
              db.users.map (fun u => u.username))
      ∧ (∀ e, p.email = some e → baseUsername p = emailLocalPart e)
      ∧ (p.email = none →
          baseUsername p = "google_" ++ p.sub.take 8) := by
  have hbe : (match p.email with
      | some e => db.users.find? (fun u => u.email == some e)
      | none => none) = (none : Option User) := by
    cases hpe : p.email with
    | none => rfl
    | some e => exact he e hpe
  have heq : googleLogin db p =
      (LoginOutcome.created
        { id := db.nextId,
          username := pickUsername (db.users.map (fun u => u.username))
            (baseUsername p),
          email := p.email, google_id := some p.sub },
       { db with
         users := db.users ++
           [{ id := db.nextId,
              username := pickUsername (db.users.map (fun u => u.username))
                (baseUsername p),
              email := p.email, google_id := some p.sub }],
         nextId := db.nextId + 1 }) := by
    unfold googleLogin
    rw [hg, hbe]
  have hfresh := exists_fresh_candidate (db.users.map (fun u => u.username))
    (baseUsername p) hnd
  rcases hfresh with ⟨j, hj, hfree⟩
  have hspec := pickUsernameAux_spec (db.users.map (fun u => u.username))
    (baseUsername p) ((db.users.map (fun u => u.username)).length + 1) 0
    ⟨j, hj, by
      rw [Nat.zero_add]
      exact hfree⟩
  rcases hspec with ⟨hnotin, k, hpick, hall⟩
  refine ⟨_, by rw [heq], by rw [heq], rfl, rfl, rfl, rfl, hnotin,
    ⟨k, ?_, ?_⟩, ?_, ?_⟩
  · unfold pickUsername
    rw [hpick, Nat.zero_add]
  · intro i hi
    have := hall i hi
    rw [Nat.zero_add] at this
    exact this
  · intro e hpe
    unfold baseUsername
    rw [hpe]
  · intro hpe
    unfold baseUsername
    rw [hpe]

/-- Concrete instance of the username-derivation theorem: the store holds
users "ann" and "ann1"; a federated login with email ann@x.com and no
matching user creates "ann2". -/
theorem google_username_derivation_witness :
    ∃ u, (googleLogin
        { users := [{ id := 1, username := "ann" },
                    { id := 2, username := "ann1" }],
          nextId := 3 }
        { sub := "s1", email := some "ann@x.com" }).1 =
      LoginOutcome.created u
      ∧ u.username = pickUsername ["ann", "ann1"]
          (baseUsername { sub := "s1", email := some "ann@x.com" })
      ∧ u.username ∉ ["ann", "ann1"] := by
  rcases google_username_derivation
    { users := [{ id := 1, username := "ann" },
                { id := 2, username := "ann1" }],
      nextId := 3 }
    { sub := "s1", email := some "ann@x.com" }
    (by decide)
    (by intro e hpe; cases hpe; decide)
    (by decide)
    with ⟨u, h1, _, _, _, _, h6, h7, _⟩
  exact ⟨u, h1, h6, h7⟩

theorem drainAux_spec (sendOk : Nat → Bool) :
    ∀ (q : List PendingCommand) (k : Nat),
      (drainAux sendOk k q).1 =
        (q.take (drainAux sendOk k q).1.length).map (fun c => c.payload)
      ∧ (drainAux sendOk k q).2 =
        (q.take (drainAux sendOk k q).1.length).map (fun c => c.id)
      ∧ (drainAux sendOk k q).1.length ≤ q.length
      ∧ (∀ i, i < (drainAux sendOk k q).1.length → sendOk (k + i) = true)
      ∧ ((drainAux sendOk k q).1.length = q.length ∨
          sendOk (k + (drainAux sendOk k q).1.length) = false) := by
  intro q
  induction q with
  | nil =>
    intro k
    refine ⟨rfl, rfl, Nat.le_refl 0, ?_, Or.inl rfl⟩
    intro i hi
    simp [drainAux] at hi
  | cons c rest ih =>
    intro k
    by_cases hs : sendOk k = true
    · have hstep : drainAux sendOk k (c :: rest) =
          (c.payload :: (drainAux sendOk (k + 1) rest).1,
           c.id :: (drainAux sendOk (k + 1) rest).2) := by
        simp [drainAux, hs]
      rcases ih (k + 1) with ⟨h1, h2, h3, h4, h5⟩
      rw [hstep]
      refine ⟨?_, ?_, ?_, ?_, ?_⟩
      · simp only [List.length_cons, List.take_succ_cons, List.map_cons]
        rw [← h1]
      · simp only [List.length_cons, List.take_succ_cons, List.map_cons]
        rw [← h2]
      · simp only [List.length_cons]
        omega
      · intro i hi
        cases i with
        | zero =>
          rw [Nat.add_zero]
          exact hs
        | succ i2 =>
          have heq : k + (i2 + 1) = k + 1 + i2 := by omega
          rw [heq]
          apply h4
          simp only [List.length_cons] at hi
          omega
      · rcases h5 with h5 | h5
        · left
          simp only [List.length_cons]
          omega
        · right
          have heq : k + ((drainAux sendOk (k + 1) rest).1.length + 1) =
              k + 1 + (drainAux sendOk (k + 1) rest).1.length := by omega
          simp only [List.length_cons, heq]
          exact h5
    · have hsf : sendOk k = false := by
        cases h2 : sendOk k with
        | false => rfl
        | true => exact absurd h2 hs
      have hstep : drainAux sendOk k (c :: rest) = ([], []) := by
        simp [drainAux, hsf]
      rw [hstep]
      refine ⟨rfl, rfl, by simp, ?_, ?_⟩
      · intro i hi
        simp at hi
      · right
        simpa using hsf

/-- Claim C2 counterexample: with one queued command for host 1, the
connect sequence emits the pending SEND_SMS frame BEFORE the
`{type: connected}` greeting — the greeting is not the first frame and the
drain does not run after it, contrary to the claim. -/
theorem drain_order_cex :
    (connectSequence
        { pendingCommands := [{ id := 5, host_device_id := 1, from_device_id := 2, payload := { mtype := "command", cmd := some "SEND_SMS" }, delivered := false, created_at := 0 }], nextId := 6 }
        [] (fun _ => true) 100 1 9 "host").1 =
      [ConnEvent.sentPending { mtype := "command", cmd := some "SEND_SMS" },
       ConnEvent.greeting 1, ConnEvent.readLoopStart]
    ∧ (connectSequence
        { pendingCommands := [{ id := 5, host_device_id := 1, from_device_id := 2, payload := { mtype := "command", cmd := some "SEND_SMS" }, delivered := false, created_at := 0 }], nextId := 6 }
        [] (fun _ => true) 100 1 9 "host").1.head? ≠
      some (ConnEvent.greeting 1) := by
  have h1 : (connectSequence
      { pendingCommands := [{ id := 5, host_device_id := 1, from_device_id := 2, payload := { mtype := "command", cmd := some "SEND_SMS" }, delivered := false, created_at := 0 }], nextId := 6 }
      [] (fun _ => true) 100 1 9 "host").1 =
      [ConnEvent.sentPending { mtype := "command", cmd := some "SEND_SMS" },
       ConnEvent.greeting 1, ConnEvent.readLoopStart] := by
    simp [connectSequence, pendingQueue, getConn, drainAux]
  refine ⟨h1, ?_⟩
  rw [h1]
  decide

/-- Claim C2 (amended): when a host session is bound, the undelivered
PendingCommand rows of that host are sent in ascending created_at (FIFO)
order; each successful send marks its row delivered, a failure aborts the
drain leaving the remainder undelivered — and this drain runs BEFORE the
`{type: connected, device_id}` greeting (after any eviction close), with
the greeting immediately preceding the start of the read loop. -/
theorem drain_on_host_connect (db : DB) (reg : Registry)
    (sendOk : Nat → Bool) (now : ℤ) (did s : Nat)
    (hnd : (db.pendingCommands.map (fun c => c.id)).Nodup) :
    (getConn reg did = none →
      (connectSequence db reg sendOk now did s "host").1 =
        ((drainAux sendOk 0 (pendingQueue db did)).1.map
          ConnEvent.sentPending) ++
          [ConnEvent.greeting did, ConnEvent.readLoopStart])
    ∧ (∀ s2, getConn reg did = some s2 →
      (connectSequence db reg sendOk now did s "host").1 =
        ConnEvent.closedOld 1008 "Replaced by new connection" ::
          ((drainAux sendOk 0 (pendingQueue db did)).1.map
            ConnEvent.sentPending) ++
          [ConnEvent.greeting did, ConnEvent.readLoopStart])
    ∧ (pendingQueue db did).Pairwise
        (fun a b => a.created_at ≤ b.created_at)
    ∧ (pendingQueue db did).Perm
        (db.pendingCommands.filter
          (fun c => c.host_device_id == did && c.delivered == false))
    ∧ (drainAux sendOk 0 (pendingQueue db did)).1 =
        ((pendingQueue db did).take
          (drainAux sendOk 0 (pendingQueue db did)).1.length).map
          (fun c => c.payload)
    ∧ (∀ i, i < (drainAux sendOk 0 (pendingQueue db did)).1.length →
        sendOk i = true)
    ∧ ((drainAux sendOk 0 (pendingQueue db did)).1.length =
          (pendingQueue db did).length ∨
        sendOk (drainAux sendOk 0 (pendingQueue db did)).1.length = false)
    ∧ (∀ c ∈ (pendingQueue db did).take
          (drainAux sendOk 0 (pendingQueue db did)).1.length,
        { c with delivered := true } ∈
          (connectSequence db reg sendOk now did s
            "host").2.1.pendingCommands)
    ∧ (∀ c ∈ (pendingQueue db did).drop
          (drainAux sendOk 0 (pendingQueue db did)).1.length,
        c ∈ (connectSequence db reg sendOk now did s
            "host").2.1.pendingCommands
        ∧ c.delivered = false) := by
  have hperm : (pendingQueue db did).Perm
      (db.pendingCommands.filter
        (fun c => c.host_device_id == did && c.delivered == false)) :=
    List.mergeSort_perm _ _
  rcases drainAux_spec sendOk (pendingQueue db did) 0 with
    ⟨h1, h2, h3, h4, h5⟩
  have hmemq : ∀ c ∈ pendingQueue db did,
      c ∈ db.pendingCommands ∧ c.delivered = false := by
    intro c hc
    have hcf := hperm.mem_iff.mp hc
    have := List.mem_filter.mp hcf
    refine ⟨this.1, ?_⟩
    have hb := this.2
    simp only [Bool.and_eq_true, beq_iff_eq] at hb
    exact hb.2
  have hdb : (connectSequence db reg sendOk now did s "host").2.1 =
      markDelivered
        { db with devices := db.devices.map (fun d =>
            if d.id == did then { d with last_seen := some now } else d) }
        (drainAux sendOk 0 (pendingQueue db did)).2 := by
    unfold connectSequence
    rw [if_pos (by rfl)]
    rfl
  refine ⟨?_, ?_, ?_, hperm, h1, ?_, ?_, ?_, ?_⟩
  · intro h
    unfold connectSequence
    rw [h, if_pos (by rfl)]
    rfl
  · intro s2 h
    unfold connectSequence
    rw [h, if_pos (by rfl)]
    rfl
  · have htrans : ∀ (a b c : PendingCommand),
        (fun a b : PendingCommand =>
          decide (a.created_at ≤ b.created_at)) a b →
        (fun a b : PendingCommand =>
          decide (a.created_at ≤ b.created_at)) b c →
        (fun a b : PendingCommand =>
          decide (a.created_at ≤ b.created_at)) a c := by
      intro a b c hab hbc
      simp only [decide_eq_true_eq] at hab hbc ⊢
      omega
    have htotal : ∀ (a b : PendingCommand),
        ((fun a b : PendingCommand =>
          decide (a.created_at ≤ b.created_at)) a b ||
        (fun a b : PendingCommand =>
          decide (a.created_at ≤ b.created_at)) b a) = true := by
      intro a b
      rcases le_total a.created_at b.created_at with h | h <;> simp [h]
    have hs := List.sorted_mergeSort htrans htotal
      (db.pendingCommands.filter
        (fun c => c.host_device_id == did && c.delivered == false))
    exact hs.imp (fun hab => by
      simpa using hab)
  · intro i hi
    have := h4 i hi
    rwa [Nat.zero_add] at this
  · rcases h5 with h | h
    · exact Or.inl h
    · rw [Nat.zero_add] at h
      exact Or.inr h
  · intro c hc
    have hcq : c ∈ pendingQueue db did := List.mem_of_mem_take hc
    have hcp := (hmemq c hcq).1
    have hid : c.id ∈ (drainAux sendOk 0 (pendingQueue db did)).2 := by
      rw [h2]
      exact List.mem_map.mpr ⟨c, hc, rfl⟩
    rw [hdb]
    unfold markDelivered
    apply List.mem_map.mpr
    refine ⟨c, hcp, ?_⟩
    rw [if_pos (List.elem_iff.mpr hid)]
  · intro c hc
    have hcq : c ∈ pendingQueue db did := List.mem_of_mem_drop hc
    have hcp := (hmemq c hcq).1
    have hdel := (hmemq c hcq).2
    have hqids : ((pendingQueue db did).map (fun c => c.id)).Nodup := by
      have hsubl : (db.pendingCommands.filter
          (fun c => c.host_device_id == did && c.delivered == false)).Sublist
          db.pendingCommands := List.filter_sublist _
      have hfnd : ((db.pendingCommands.filter
          (fun c => c.host_device_id == did &&
            c.delivered == false)).map (fun c => c.id)).Nodup :=
        List.Nodup.sublist (hsubl.map (fun c => c.id)) hnd
      exact ((hperm.map (fun c => c.id)).nodup_iff).mpr hfnd
    have hsplit : (pendingQueue db did).map (fun c => c.id) =
        ((pendingQueue db did).take
          (drainAux sendOk 0 (pendingQueue db did)).1.length).map
            (fun c => c.id) ++
        ((pendingQueue db did).drop
          (drainAux sendOk 0 (pendingQueue db did)).1.length).map
            (fun c => c.id) := by
      rw [← List.map_append, List.take_append_drop]
    rw [hsplit] at hqids
    have hdisj := List.nodup_append.mp hqids
    have hnotin : c.id ∉ ((pendingQueue db did).take
        (drainAux sendOk 0 (pendingQueue db did)).1.length).map
          (fun c => c.id) := by
      intro hin
      exact hdisj.2.2 hin (List.mem_map.mpr ⟨c, hc, rfl⟩)
    constructor
    · rw [hdb]
      unfold markDelivered
      apply List.mem_map.mpr
      refine ⟨c, hcp, ?_⟩
      rw [if_neg ?hni]
      case hni =>
        intro hcontains
        apply hnotin
        rw [← h2]
        exact List.elem_iff.mp hcontains
    · exact hdel

/-- Concrete instance of the drain theorem: host 1 has one queued
command; on connect the pending frame precedes the greeting and the read
loop start. -/
theorem drain_on_host_connect_witness :
    (connectSequence
        { pendingCommands := [{ id := 5, host_device_id := 1, from_device_id := 2, payload := { mtype := "command", cmd := some "MAKE_CALL" }, delivered := false, created_at := 0 }], nextId := 6 }
        [] (fun _ => true) 100 1 9 "host").1 =
      ((drainAux (fun _ => true) 0 (pendingQueue
        { pendingCommands := [{ id := 5, host_device_id := 1, from_device_id := 2, payload := { mtype := "command", cmd := some "MAKE_CALL" }, delivered := false, created_at := 0 }], nextId := 6 } 1)).1.map ConnEvent.sentPending) ++
        [ConnEvent.greeting 1, ConnEvent.readLoopStart] :=
  (drain_on_host_connect
    { pendingCommands := [{ id := 5, host_device_id := 1, from_device_id := 2, payload := { mtype := "command", cmd := some "MAKE_CALL" }, delivered := false, created_at := 0 }], nextId := 6 }
    [] (fun _ => true) 100 1 9 (by decide)).1 rfl

end SimBridge
